import Mathlib

/-
Verification of the analog log-analysis core (src/analog/analyzer.py).

The embedding models the Analyzer class: its constructor, the private
path-monitoring resolution, timestamp parsing, and the scan loop of
Analyzer.__call__.  External collaborators that are not part of the
analyzed source (the format registry in analog/formats.py, the regex
engine, Python builtins int and float, and the Report aggregator) are
abstracted as function-valued parameters: a format carries a search
function (pattern.search composed with entry extraction) and a
timestamp parser (strptime with the time_format of the format), and the
numeric coercions are fields of a Coercions record.  Failure of an
external parser (a Python ValueError) is modeled as the Option value
none.  Datetime values are modeled as integer microsecond counts;
replace with second=0 and microsecond=0 becomes floor truncation to the
minute, and timedelta subtraction becomes integer subtraction.  The
numeric values produced by float are abstracted to Int: no claim
depends on their arithmetic, only on which add calls happen and on
failure propagation.  The Report aggregator is modeled by the ordered
list of add calls the scan makes.
-/

namespace Analog

/-- Modelled from the spec: the structured record extracted from one
matched log line (LogEntry in section 3 of the design).  All fields are
the raw captured strings; numeric coercion happens later in the loop. -/
structure LogEntry where
  timestamp : String
  path : String
  verb : String
  status : String
  request_time : String
  upstream_response_time : String
  body_bytes_sent : String
deriving Repr, DecidableEq

/-- Modelled from the spec: a resolved log format (LogFormat in
analog/formats.py, external to the analyzed source).  The search field
abstracts pattern.search composed with entry extraction: none when the
line does not match the pattern.  The parseTime field abstracts
datetime.strptime with the time_format of the format, returning the
parsed datetime as a microsecond count, or none when parsing raises. -/
structure LogFormat where
  name : String
  search : String → Option LogEntry
  parseTime : String → Option Int

/-- Abstraction of the Python builtins int and float used for numeric
coercion in report.add; none models a ValueError.  Float results are
abstracted to Int since no claim depends on their arithmetic. -/
structure Coercions where
  int : String → Option Int
  float : String → Option Int

/-- One add call forwarded to the Report aggregator, with the six
fields of report.add in analyzer.py. -/
structure AddCall where
  path : String
  verb : String
  status : Int
  time : Int
  upstream_time : Int
  body_bytes : Int
deriving Repr, DecidableEq

/-- The error raised by a matched, in-window line: a ValueError from
strptime on the timestamp, or from int or float on a numeric field. -/
inductive ScanError where
  | badTimestamp (s : String)
  | badInt (s : String)
  | badFloat (s : String)
deriving Repr, DecidableEq

/-- How the scan loop ended: source exhausted, break on a future
timestamp, or an uncaught per-line error. -/
inductive Stop where
  | completed
  | futureBreak
  | failed (e : ScanError)
deriving Repr, DecidableEq

/-- Result of one scan invocation: the add calls made to the
aggregator in order, how the loop stopped, and the lines of the source
left unexamined (the iterator state when the loop exits early). -/
structure ScanResult where
  adds : List AddCall
  stop : Stop
  remaining : List String
deriving Repr, DecidableEq

/-- What the loop body does with one line: skip it (continue), stop
the whole scan (break), forward one add call, or raise. -/
inductive StepResult where
  | skip
  | stop
  | emit (c : AddCall)
  | fail (e : ScanError)
deriving Repr, DecidableEq

/-- The str.startswith method of Python on the character sequences of
the two strings: true when the second argument is a prefix of the
first. -/
def startswith (s pre : String) : Bool :=
  pre.data.isPrefixOf s.data

/-- The for loop inside Analyzer._monitor_path: first configured
element that is a string-prefix of the path, else none. -/
def firstMonitored (conf : List String) (path : String) : Option String :=
  match conf with
  | [] => none
  | monitored :: rest =>
      if startswith path monitored then some monitored
      else firstMonitored rest path

/-- Analyzer._monitor_path: if no path groups are configured, return
the full path; otherwise the first configured element the path starts
with, or none when unmonitored. -/
def monitor_path (conf : List String) (path : String) : Option String :=
  if conf.isEmpty then some path
  else firstMonitored conf path

/-- The tail of the loop body after windowing: Analyzer._monitor_path
followed by the numeric coercions inside report.add, in the evaluation
order of the call (status, request time, upstream time, body bytes). -/
def resolveAndEmit (conf : List String) (env : Coercions) (e : LogEntry) :
    StepResult :=
  match monitor_path conf e.path with
  | none => .skip
  | some p =>
    match env.int e.status with
    | none => .fail (.badInt e.status)
    | some status =>
      match env.float e.request_time with
      | none => .fail (.badFloat e.request_time)
      | some t =>
        match env.float e.upstream_response_time with
        | none => .fail (.badFloat e.upstream_response_time)
        | some ut =>
          match env.int e.body_bytes_sent with
          | none => .fail (.badInt e.body_bytes_sent)
          | some bb => .emit ⟨p, e.verb, status, t, ut, bb⟩

/-- The body of the for loop in Analyzer.__call__, for one line:
pattern search, timestamp parsing (Analyzer._timestamp), the two
window checks, then path resolution and forwarding. -/
def processLine (fmt : LogFormat) (conf : List String) (now min_time : Int)
    (env : Coercions) (line : String) : StepResult :=
  match fmt.search line with
  | none => .skip
  | some log_entry =>
    match fmt.parseTime log_entry.timestamp with
    | none => .fail (.badTimestamp log_entry.timestamp)
    | some timestamp =>
      if timestamp < min_time then .skip
      else if timestamp > now then .stop
      else resolveAndEmit conf env log_entry

/-- The for loop of Analyzer.__call__ over the lines of the source. -/
def scanLoop (fmt : LogFormat) (conf : List String) (now min_time : Int)
    (env : Coercions) : List String → ScanResult
  | [] => ⟨[], .completed, []⟩
  | line :: rest =>
    match processLine fmt conf now min_time env line with
    | .skip => scanLoop fmt conf now min_time env rest
    | .stop => ⟨[], .futureBreak, rest⟩
    | .fail e => ⟨[], .failed e, rest⟩
    | .emit c =>
      ⟨c :: (scanLoop fmt conf now min_time env rest).adds,
       (scanLoop fmt conf now min_time env rest).stop,
       (scanLoop fmt conf now min_time env rest).remaining⟩

/-- Microseconds in one minute, the granularity of the truncation in
Analyzer.__call__. -/
def MICROSECONDS_PER_MINUTE : Int := 60000000

/-- The datetime.replace call with second=0 and microsecond=0 on the
microsecond-count model of datetime: drop the sub-minute part. -/
def truncMinute (t : Int) : Int := t - t % MICROSECONDS_PER_MINUTE

/-- The second component of a microsecond-count datetime. -/
def secondOf (t : Int) : Int := (t / 1000000) % 60

/-- The microsecond component of a microsecond-count datetime. -/
def microsecondOf (t : Int) : Int := t % 1000000

/-- The configured Analyzer instance after __init__: the stored log
handle (as the list of its lines), the resolved format, the monitored
path configuration and the max age in minutes. -/
structure AnalyzerState where
  log : List String
  format : LogFormat
  pathconf : List String
  max_age : Int

/-- Modelled from the spec: the configuration error raised by
Analyzer.__init__ (MissingFormatError in analog/exceptions.py, which
is not under the analyzed source). -/
inductive InitError where
  | missingFormat (msg : String)
deriving Repr, DecidableEq

/-- Dictionary lookup in the registry returned by
LogFormat.all_formats, modeled as an association list. -/
def lookupFormat (registry : List (String × LogFormat)) (name : String) :
    Option LogFormat :=
  match registry with
  | [] => none
  | (k, f) :: rest => if k = name then some f else lookupFormat rest name

/-- Analyzer.__init__: store the log handle, raise MissingFormatError
on a falsy format argument (absent, i.e. None, or the empty string),
otherwise resolve the format through the registry with a custom-format
fallback and store the path and max-age configuration.  The registry
and the custom-format constructor (LogFormat with re.escape) are
external and passed as parameters. -/
def Analyzer_init (log : List String) (format : Option String)
    (registry : List (String × LogFormat)) (custom : String → LogFormat)
    (paths : List String) (max_age : Int) :
    Except InitError AnalyzerState :=
  let fstr := match format with | none => "" | some s => s
  if fstr = "" then
    .error (.missingFormat
      "Require log format. Specify format name or regex pattern.")
  else
    let fmt := match lookupFormat registry fstr with
      | some f => f
      | none => custom fstr
    .ok { log := log, format := fmt, pathconf := paths, max_age := max_age }

/-- Analyzer.__call__: compute now as the wall clock truncated to the
minute, min_time as now minus max_age minutes, then run the scan loop
over the stored log lines.  The wall clock reading (datetime.now) is a
parameter. -/
def analyzerCall (a : AnalyzerState) (env : Coercions) (wallclock : Int) :
    ScanResult :=
  let now := truncMinute wallclock
  let min_time := now - a.max_age * MICROSECONDS_PER_MINUTE
  scanLoop a.format a.pathconf now min_time env a.log

/-- Concrete fixture: a log entry with fixed verb, timing and size
strings, for evaluating the embedding on closed inputs. -/
def egEntry (ts p st : String) : LogEntry :=
  ⟨ts, p, "GET", st, "0.05", "0.04", "512"⟩

/-- Concrete fixture: a format whose search and timestamp parser are
finite case tables over a handful of line and timestamp strings. -/
def egFormat : LogFormat :=
  ⟨"eg",
   fun line =>
     if line = "old" then some (egEntry "t1" "/api/v1/foo" "200")
     else if line = "in" then some (egEntry "t2" "/api/v1/foo" "200")
     else if line = "atmin" then some (egEntry "tmin" "/api/v1/foo" "200")
     else if line = "atnow" then some (egEntry "tnow" "/api/v1/foo" "200")
     else if line = "future" then some (egEntry "t9" "/api/v1/foo" "200")
     else if line = "badts" then some (egEntry "tX" "/api/v1/foo" "200")
     else if line = "badnum" then some (egEntry "t2" "/api/v1/foo" "XX")
     else none,
   fun s =>
     if s = "t1" then some 1
     else if s = "t2" then some 400000000
     else if s = "tmin" then some 300000000
     else if s = "tnow" then some 600000000
     else if s = "t9" then some 900000000
     else none⟩

/-- Concrete fixture: numeric coercions defined on the strings the
example format produces, undefined elsewhere. -/
def egEnv : Coercions :=
  ⟨fun s =>
     if s = "200" then some 200 else if s = "512" then some 512 else none,
   fun s =>
     if s = "0.05" then some 5 else if s = "0.04" then some 4 else none⟩

/-- Concrete fixture: the add call the example format and coercions
produce for an in-window line under the configuration ["/api"]. -/
def egAdd : AddCall := ⟨"/api", "GET", 200, 5, 4, 512⟩

/-! Helper lemmas shared by several claims. -/

/-- The skip branch of the loop body leaves the scan of the remaining
lines unchanged. -/
theorem scanLoop_skip (fmt : LogFormat) (conf : List String) (now mt : Int)
    (env : Coercions) (line : String) (rest : List String)
    (h : processLine fmt conf now mt env line = .skip) :
    scanLoop fmt conf now mt env (line :: rest) =
      scanLoop fmt conf now mt env rest := by
  simp [scanLoop, h]

/-- The loop body never stops the scan after the windowing checks. -/
theorem resolveAndEmit_ne_stop (conf : List String) (env : Coercions)
    (e : LogEntry) : resolveAndEmit conf env e ≠ .stop := by
  intro h
  unfold resolveAndEmit at h
  rcases hm : monitor_path conf e.path with _ | p <;> simp only [hm] at h
  · simp at h
  rcases h1 : env.int e.status with _ | st <;> simp only [h1] at h
  · simp at h
  rcases h2 : env.float e.request_time with _ | t <;> simp only [h2] at h
  · simp at h
  rcases h3 : env.float e.upstream_response_time with _ | ut <;>
    simp only [h3] at h
  · simp at h
  rcases h4 : env.int e.body_bytes_sent with _ | bb <;> simp only [h4] at h
  · simp at h
  simp at h

/-- A forwarded add call carries the resolved monitored path of the
entry that produced it. -/
theorem resolveAndEmit_emit_path (conf : List String) (env : Coercions)
    (e : LogEntry) (c : AddCall)
    (h : resolveAndEmit conf env e = .emit c) :
    monitor_path conf e.path = some c.path := by
  unfold resolveAndEmit at h
  rcases hm : monitor_path conf e.path with _ | p <;> simp only [hm] at h
  · simp at h
  rcases h1 : env.int e.status with _ | st <;> simp only [h1] at h
  · simp at h
  rcases h2 : env.float e.request_time with _ | t <;> simp only [h2] at h
  · simp at h
  rcases h3 : env.float e.upstream_response_time with _ | ut <;>
    simp only [h3] at h
  · simp at h
  rcases h4 : env.int e.body_bytes_sent with _ | bb <;> simp only [h4] at h
  · simp at h
  injection h with h
  subst h
  rfl

/-- An emitted add call comes from a matched entry of its line. -/
theorem processLine_emit (fmt : LogFormat) (conf : List String)
    (now mt : Int) (env : Coercions) (line : String) (c : AddCall)
    (h : processLine fmt conf now mt env line = .emit c) :
    ∃ e, fmt.search line = some e ∧ resolveAndEmit conf env e = .emit c := by
  unfold processLine at h
  rcases hs : fmt.search line with _ | e <;> simp only [hs] at h
  · simp at h
  rcases hts : fmt.parseTime e.timestamp with _ | ts <;> simp only [hts] at h
  · simp at h
  by_cases h1 : ts < mt
  · rw [if_pos h1] at h
    simp at h
  rw [if_neg h1] at h
  by_cases h2 : now < ts
  · rw [if_pos h2] at h
    simp at h
  rw [if_neg h2] at h
  exact ⟨e, rfl, h⟩

/-- The element returned by the prefix scan belongs to the configured
list. -/
theorem firstMonitored_mem (conf : List String) (path m : String)
    (h : firstMonitored conf path = some m) : m ∈ conf := by
  induction conf with
  | nil => simp [firstMonitored] at h
  | cons c rest ih =>
    unfold firstMonitored at h
    by_cases hc : startswith path c = true
    · simp [hc] at h
      simp [h]
    · simp [hc] at h
      exact List.mem_cons_of_mem c (ih h)

/-- Characterization of the prefix scan: it returns exactly the first
configured element the path starts with. -/
theorem firstMonitored_some_iff (conf : List String) (path m : String) :
    firstMonitored conf path = some m ↔
      ∃ i : Nat, conf[i]? = some m ∧ startswith path m = true ∧
        ∀ j : Nat, j < i → ∀ m', conf[j]? = some m' →
          startswith path m' = false := by
  induction conf with
  | nil => simp [firstMonitored]
  | cons c rest ih =>
    unfold firstMonitored
    by_cases hc : startswith path c = true
    · rw [if_pos hc]
      constructor
      · intro h
        injection h with h
        subst h
        exact ⟨0, by simp, hc, by intro j hj; omega⟩
      · rintro ⟨i, hi, hsw, hmin⟩
        cases i with
        | zero => simp at hi; subst hi; rfl
        | succ i =>
          exfalso
          have := hmin 0 (Nat.succ_pos i) c (by simp)
          simp [hc] at this
    · rw [if_neg hc]
      rw [ih]
      constructor
      · rintro ⟨i, hi, hsw, hmin⟩
        refine ⟨i + 1, by simpa using hi, hsw, ?_⟩
        intro j hj m' hm'
        cases j with
        | zero =>
          simp at hm'
          subst hm'
          simpa using hc
        | succ j =>
          exact hmin j (by omega) m' (by simpa using hm')
      · rintro ⟨i, hi, hsw, hmin⟩
        cases i with
        | zero =>
          simp at hi
          subst hi
          exact absurd hsw hc
        | succ i =>
          refine ⟨i, by simpa using hi, hsw, ?_⟩
          intro j hj m' hm'
          exact hmin (j + 1) (by omega) m' (by simpa using hm')

/-- The prefix scan fails exactly when no configured element is a
string-prefix of the path. -/
theorem firstMonitored_none_iff (conf : List String) (path : String) :
    firstMonitored conf path = none ↔
      ∀ m ∈ conf, startswith path m = false := by
  induction conf with
  | nil => simp [firstMonitored]
  | cons c rest ih =>
    unfold firstMonitored
    by_cases hc : startswith path c = true
    · simp [hc]
    · rw [if_neg hc]
      rw [ih]
      constructor
      · intro h m hm
        rcases List.mem_cons.mp hm with h1 | h1
        · subst h1; simpa using hc
        · exact h m h1
      · intro h m hm
        exact h m (List.mem_cons_of_mem c hm)

/-- Numeric coercion failure in the forwarding step raises, whatever
combination of the four fields is malformed. -/
theorem resolveAndEmit_fail_of_numeric (conf : List String)
    (env : Coercions) (e : LogEntry) (p : String)
    (hmon : monitor_path conf e.path = some p)
    (hnum : env.int e.status = none ∨ env.float e.request_time = none ∨
            env.float e.upstream_response_time = none ∨
            env.int e.body_bytes_sent = none) :
    ∃ err, resolveAndEmit conf env e = .fail err := by
  rcases h1 : env.int e.status with _ | st
  · exact ⟨.badInt e.status, by simp [resolveAndEmit, hmon, h1]⟩
  rcases h2 : env.float e.request_time with _ | t
  · exact ⟨.badFloat e.request_time, by simp [resolveAndEmit, hmon, h1, h2]⟩
  rcases h3 : env.float e.upstream_response_time with _ | ut
  · exact ⟨.badFloat e.upstream_response_time,
      by simp [resolveAndEmit, hmon, h1, h2, h3]⟩
  rcases h4 : env.int e.body_bytes_sent with _ | bb
  · exact ⟨.badInt e.body_bytes_sent,
      by simp [resolveAndEmit, hmon, h1, h2, h3, h4]⟩
  rcases hnum with h | h | h | h <;> simp_all

/-- Scanning a source whose first part runs to completion continues
into the second part, keeping the add calls of the first part in
front. -/
theorem scanLoop_append_completed (fmt : LogFormat) (conf : List String)
    (now mt : Int) (env : Coercions) (xs : List String) :
    ∀ (ys : List String) (A : List AddCall) (rem : List String),
    scanLoop fmt conf now mt env xs = ⟨A, .completed, rem⟩ →
    scanLoop fmt conf now mt env (xs ++ ys) =
      ⟨A ++ (scanLoop fmt conf now mt env ys).adds,
       (scanLoop fmt conf now mt env ys).stop,
       (scanLoop fmt conf now mt env ys).remaining⟩ := by
  induction xs with
  | nil =>
    intro ys A rem h
    simp only [scanLoop, ScanResult.mk.injEq] at h
    obtain ⟨h1, _, _⟩ := h
    subst h1
    simp
  | cons line rest ih =>
    intro ys A rem h
    rw [List.cons_append]
    simp only [scanLoop] at h ⊢
    cases hp : processLine fmt conf now mt env line with
    | skip =>
      simp only [hp] at h ⊢
      exact ih ys A rem h
    | stop =>
      simp only [hp, ScanResult.mk.injEq] at h
      exact Stop.noConfusion h.2.1
    | fail err =>
      simp only [hp, ScanResult.mk.injEq] at h
      exact Stop.noConfusion h.2.1
    | emit c =>
      simp only [hp, ScanResult.mk.injEq] at h ⊢
      obtain ⟨hA, hstop, hrem⟩ := h
      have hrest : scanLoop fmt conf now mt env rest =
          ⟨(scanLoop fmt conf now mt env rest).adds, .completed, rem⟩ := by
        rw [← hstop, ← hrem]
      rw [ih ys _ rem hrest]
      subst hA
      simp

/-! Claim theorems. -/

/-- C9: with an empty monitored-path configuration, path resolution is
the identity: every full path is returned unchanged (so no record is
ever excluded as unmonitored). -/
theorem c9_empty_conf_identity (path : String) :
    monitor_path ([] : List String) path = some path ∧
    (monitor_path ([] : List String) path).isSome = true := by
  constructor <;> simp [monitor_path]

/-- C3: a matched record whose parsed timestamp is strictly below
min_time is excluded (the loop body skips it, making no add call) and
scanning continues with the next line. -/
theorem c3_too_old_excluded_continue (fmt : LogFormat) (conf : List String)
    (now mt : Int) (env : Coercions) (line : String) (rest : List String)
    (e : LogEntry) (ts : Int)
    (hsearch : fmt.search line = some e)
    (hts : fmt.parseTime e.timestamp = some ts)
    (hold : ts < mt) :
    processLine fmt conf now mt env line = .skip ∧
    scanLoop fmt conf now mt env (line :: rest) =
      scanLoop fmt conf now mt env rest := by
  have hp : processLine fmt conf now mt env line = .skip := by
    simp [processLine, hsearch, hts, hold]
  exact ⟨hp, scanLoop_skip fmt conf now mt env line rest hp⟩

/-- C6: a line that does not match the pattern is silently skipped:
the loop body makes no add call, raises no error, and the scan of the
remaining lines is unchanged. -/
theorem c6_no_match_skipped (fmt : LogFormat) (conf : List String)
    (now mt : Int) (env : Coercions) (line : String) (rest : List String)
    (hsearch : fmt.search line = none) :
    processLine fmt conf now mt env line = .skip ∧
    scanLoop fmt conf now mt env (line :: rest) =
      scanLoop fmt conf now mt env rest := by
  have hp : processLine fmt conf now mt env line = .skip := by
    simp [processLine, hsearch]
  exact ⟨hp, scanLoop_skip fmt conf now mt env line rest hp⟩

/-- C4: the age window is inclusive at both ends: a matched record
with min_time ≤ timestamp ≤ now proceeds to path-monitoring
resolution, and that continuation never stops the scan. -/
theorem c4_window_inclusive (fmt : LogFormat) (conf : List String)
    (now mt : Int) (env : Coercions) (line : String)
    (e : LogEntry) (ts : Int)
    (hsearch : fmt.search line = some e)
    (hts : fmt.parseTime e.timestamp = some ts)
    (hge : mt ≤ ts) (hle : ts ≤ now) :
    processLine fmt conf now mt env line = resolveAndEmit conf env e ∧
    resolveAndEmit conf env e ≠ .stop := by
  constructor
  · simp [processLine, hsearch, hts, not_lt.mpr hge, not_lt.mpr hle]
  · exact resolveAndEmit_ne_stop conf env e

/-- C1: with a nonempty configured monitored-path list, path
resolution returns exactly the first prefix in configured order that
the path starts with; it returns none exactly when no configured
prefix matches, and on a none result the loop body skips the record,
so the scan continues and the aggregator receives no add call for
it. -/
theorem c1_first_configured_match (conf : List String) (path : String)
    (hne : conf ≠ []) :
    (∀ m : String, monitor_path conf path = some m ↔
      ∃ i : Nat, conf[i]? = some m ∧ startswith path m = true ∧
        ∀ j : Nat, j < i → ∀ m', conf[j]? = some m' →
          startswith path m' = false) ∧
    (monitor_path conf path = none ↔
      ∀ m ∈ conf, startswith path m = false) ∧
    (∀ (env : Coercions) (e : LogEntry), e.path = path →
      monitor_path conf path = none →
      resolveAndEmit conf env e = .skip) ∧
    (∀ (fmt : LogFormat) (now mt : Int) (env : Coercions) (line : String)
      (rest : List String),
      processLine fmt conf now mt env line = .skip →
      scanLoop fmt conf now mt env (line :: rest) =
        scanLoop fmt conf now mt env rest) := by
  have hne' : conf.isEmpty = false := by
    cases conf with
    | nil => exact absurd rfl hne
    | cons a l => rfl
  have hmp : monitor_path conf path = firstMonitored conf path := by
    simp [monitor_path, hne']
  refine ⟨?_, ?_, ?_, ?_⟩
  · intro m
    rw [hmp]
    exact firstMonitored_some_iff conf path m
  · rw [hmp]
    exact firstMonitored_none_iff conf path
  · intro env e hp hnone
    rw [← hp] at hnone
    simp [resolveAndEmit, hnone]
  · intro fmt now mt env line rest hskip
    exact scanLoop_skip fmt conf now mt env line rest hskip

/-- C2: with a nonnegative max age, when the scan meets a matched
record whose parsed timestamp is strictly greater than now, it stops
there: the add calls are exactly those of the preceding lines and
every subsequent line of the source is left unexamined. -/
theorem c2_future_timestamp_stops (fmt : LogFormat) (conf : List String)
    (env : Coercions) (wallclock max_age : Int)
    (pre post : List String) (line : String) (e : LogEntry) (ts : Int)
    (A : List AddCall)
    (hma : 0 ≤ max_age)
    (hpre : scanLoop fmt conf (truncMinute wallclock)
        (truncMinute wallclock - max_age * MICROSECONDS_PER_MINUTE) env pre =
        ⟨A, .completed, []⟩)
    (hsearch : fmt.search line = some e)
    (hts : fmt.parseTime e.timestamp = some ts)
    (hfut : truncMinute wallclock < ts) :
    analyzerCall ⟨pre ++ line :: post, fmt, conf, max_age⟩ env wallclock =
      ⟨A, .futureBreak, post⟩ := by
  have hmtle : truncMinute wallclock - max_age * MICROSECONDS_PER_MINUTE ≤
      truncMinute wallclock := by
    have h0 : (0 : Int) ≤ max_age * MICROSECONDS_PER_MINUTE :=
      mul_nonneg hma (by norm_num [MICROSECONDS_PER_MINUTE])
    omega
  have hp : processLine fmt conf (truncMinute wallclock)
      (truncMinute wallclock - max_age * MICROSECONDS_PER_MINUTE) env line =
      .stop := by
    simp [processLine, hsearch, hts, hfut,
      not_lt.mpr (le_trans hmtle (le_of_lt hfut))]
  have hone : scanLoop fmt conf (truncMinute wallclock)
      (truncMinute wallclock - max_age * MICROSECONDS_PER_MINUTE) env
      (line :: post) = ⟨[], .futureBreak, post⟩ := by
    simp [scanLoop, hp]
  show scanLoop fmt conf (truncMinute wallclock)
      (truncMinute wallclock - max_age * MICROSECONDS_PER_MINUTE) env
      (pre ++ line :: post) = ⟨A, .futureBreak, post⟩
  rw [scanLoop_append_completed fmt conf (truncMinute wallclock)
    (truncMinute wallclock - max_age * MICROSECONDS_PER_MINUTE) env pre
    (line :: post) A [] hpre, hone]
  simp

/-- C7: after a clean prefix of the source, a matched in-window
monitored line with a malformed timestamp or a malformed numeric field
aborts the scan: the result carries exactly the add calls already
forwarded for the earlier lines (none is rolled back), the error is
propagated, and no later line is read. -/
theorem c7_malformed_field_aborts (fmt : LogFormat) (conf : List String)
    (now mt : Int) (env : Coercions) (pre post : List String)
    (bad : String) (e : LogEntry) (A : List AddCall)
    (hpre : scanLoop fmt conf now mt env pre = ⟨A, .completed, []⟩)
    (hsearch : fmt.search bad = some e)
    (hmal : fmt.parseTime e.timestamp = none ∨
      (∃ ts p, fmt.parseTime e.timestamp = some ts ∧ mt ≤ ts ∧ ts ≤ now ∧
        monitor_path conf e.path = some p ∧
        (env.int e.status = none ∨ env.float e.request_time = none ∨
         env.float e.upstream_response_time = none ∨
         env.int e.body_bytes_sent = none))) :
    ∃ err, scanLoop fmt conf now mt env (pre ++ bad :: post) =
      ⟨A, .failed err, post⟩ := by
  have hfail : ∃ err, processLine fmt conf now mt env bad = .fail err := by
    rcases hmal with hbadts | ⟨ts, p, hts, hge, hle, hmon, hnum⟩
    · exact ⟨.badTimestamp e.timestamp, by simp [processLine, hsearch, hbadts]⟩
    · obtain ⟨err, herr⟩ :=
        resolveAndEmit_fail_of_numeric conf env e p hmon hnum
      refine ⟨err, ?_⟩
      rw [show processLine fmt conf now mt env bad =
          resolveAndEmit conf env e from by
        simp [processLine, hsearch, hts, not_lt.mpr hge, not_lt.mpr hle]]
      exact herr
  obtain ⟨err, hfl⟩ := hfail
  refine ⟨err, ?_⟩
  have hone : scanLoop fmt conf now mt env (bad :: post) =
      ⟨[], .failed err, post⟩ := by
    simp [scanLoop, hfl]
  rw [scanLoop_append_completed fmt conf now mt env pre (bad :: post) A []
    hpre, hone]
  simp

/-- C10: every add call the scan forwards carries as its path either
the full request path of the record that produced it, exactly when the
configured list is empty, or an element of the configured list. -/
theorem c10_add_path_invariant (fmt : LogFormat) (conf : List String)
    (now mt : Int) (env : Coercions) (lines : List String) (c : AddCall)
    (hc : c ∈ (scanLoop fmt conf now mt env lines).adds) :
    (conf = [] ∧ ∃ line ∈ lines, ∃ e, fmt.search line = some e ∧
      c.path = e.path) ∨
    (conf ≠ [] ∧ c.path ∈ conf) := by
  induction lines with
  | nil => simp [scanLoop] at hc
  | cons line rest ih =>
    simp only [scanLoop] at hc
    cases hp : processLine fmt conf now mt env line with
    | skip =>
      simp only [hp] at hc
      rcases ih hc with ⟨h1, line', hl, hrest⟩ | h2
      · exact Or.inl ⟨h1, line', List.mem_cons_of_mem line hl, hrest⟩
      · exact Or.inr h2
    | stop =>
      simp only [hp] at hc
      simp at hc
    | fail err =>
      simp only [hp] at hc
      simp at hc
    | emit c' =>
      simp only [hp] at hc
      rcases List.mem_cons.mp hc with hceq | hmem
      · subst hceq
        obtain ⟨e, hse, hre⟩ :=
          processLine_emit fmt conf now mt env line c hp
        have hmon := resolveAndEmit_emit_path conf env e c hre
        by_cases hcn : conf = []
        · subst hcn
          refine Or.inl ⟨rfl, line, List.mem_cons_self line rest, e, hse, ?_⟩
          simp [monitor_path] at hmon
          exact hmon.symm
        · refine Or.inr ⟨hcn, ?_⟩
          have hne' : conf.isEmpty = false := by
            cases conf with
            | nil => exact absurd rfl hcn
            | cons a l => rfl
          have hfm : firstMonitored conf e.path = some c.path := by
            simpa [monitor_path, hne'] using hmon
          exact firstMonitored_mem conf e.path c.path hfm
      · rcases ih hmem with ⟨h1, line', hl, hrest⟩ | h2
        · exact Or.inl ⟨h1, line', List.mem_cons_of_mem line hl, hrest⟩
        · exact Or.inr h2

/-- C8: at the start of a scan, now is the wall clock with its second
and microsecond components zeroed (truncation down by less than one
minute), min_time is exactly now minus max_age minutes, and the whole
scan runs as one loop over these two fixed values. -/
theorem c8_window_computation (a : AnalyzerState) (env : Coercions)
    (wallclock : Int) :
    secondOf (truncMinute wallclock) = 0 ∧
    microsecondOf (truncMinute wallclock) = 0 ∧
    truncMinute wallclock ≤ wallclock ∧
    wallclock - truncMinute wallclock < MICROSECONDS_PER_MINUTE ∧
    analyzerCall a env wallclock =
      scanLoop a.format a.pathconf (truncMinute wallclock)
        (truncMinute wallclock - a.max_age * MICROSECONDS_PER_MINUTE)
        env a.log := by
  refine ⟨?_, ?_, ?_, ?_, rfl⟩
  · unfold secondOf truncMinute MICROSECONDS_PER_MINUTE
    omega
  · unfold microsecondOf truncMinute MICROSECONDS_PER_MINUTE
    omega
  · unfold truncMinute MICROSECONDS_PER_MINUTE
    omega
  · unfold truncMinute MICROSECONDS_PER_MINUTE
    omega

/-- C5: constructing the analyzer with an absent or empty format
identifier raises MissingFormatError at configuration time, whatever
the log source holds; with a nonempty identifier construction succeeds
without that error and stores the log source unconsumed together with
the path and max-age configuration. -/
theorem c5_missing_format_eager (log : List String) (format : Option String)
    (registry : List (String × LogFormat)) (custom : String → LogFormat)
    (paths : List String) (max_age : Int) :
    ((format = none ∨ format = some "") →
      Analyzer_init log format registry custom paths max_age =
        .error (.missingFormat
          "Require log format. Specify format name or regex pattern.")) ∧
    (∀ s : String, format = some s → s ≠ "" →
      ∃ st : AnalyzerState,
        Analyzer_init log format registry custom paths max_age = .ok st ∧
        st.log = log ∧ st.pathconf = paths ∧ st.max_age = max_age) := by
  constructor
  · rintro (h | h) <;> subst h <;> simp [Analyzer_init]
  · intro s hs hne
    subst hs
    refine ⟨⟨log,
      (match lookupFormat registry s with
       | some f => f
       | none => custom s), paths, max_age⟩, ?_, rfl, rfl, rfl⟩
    simp [Analyzer_init, hne]

/-! Witnesses: each applies its claim theorem at closed inputs. -/

/-- Witness for the first-match claim at the tie-break example of the
spec: of the two configured prefixes that both match, the first in
configured order wins. -/
theorem c1_first_configured_match_witness :
    (["/a", "/ab"] : List String) ≠ [] ∧
    monitor_path ["/a", "/ab"] "/ab/x" = some "/a" := by
  refine ⟨by decide, ?_⟩
  exact ((c1_first_configured_match ["/a", "/ab"] "/ab/x" (by decide)).1
    "/a").mpr ⟨0, by decide, by decide,
      by intro j hj; exact absurd hj (Nat.not_lt_zero j)⟩

/-- Witness for the future-timestamp stop: an out-of-order source
where a qualifying line follows the future record is truncated at the
future record. -/
theorem c2_future_timestamp_stops_witness :
    (0 : Int) ≤ 5 ∧
    analyzerCall ⟨["in", "future", "in"], egFormat, ["/api"], 5⟩ egEnv
        600000030 = ⟨[egAdd], .futureBreak, ["in"]⟩ := by
  refine ⟨by decide, ?_⟩
  exact c2_future_timestamp_stops egFormat ["/api"] egEnv 600000030 5
    ["in"] ["in"] "future" (egEntry "t9" "/api/v1/foo" "200") 900000000
    [egAdd] (by decide) (by decide) (by decide) (by decide) (by decide)

/-- Witness for the too-old exclusion: a record one microsecond old
against a window starting at 300000000 is dropped and the scan of the
rest is unchanged. -/
theorem c3_too_old_excluded_continue_witness :
    egFormat.search "old" = some (egEntry "t1" "/api/v1/foo" "200") ∧
    egFormat.parseTime "t1" = some 1 ∧ (1 : Int) < 300000000 ∧
    scanLoop egFormat ["/api"] 600000000 300000000 egEnv ["old", "in"] =
      scanLoop egFormat ["/api"] 600000000 300000000 egEnv ["in"] := by
  refine ⟨by decide, by decide, by decide, ?_⟩
  exact (c3_too_old_excluded_continue egFormat ["/api"] 600000000 300000000
    egEnv "old" ["in"] (egEntry "t1" "/api/v1/foo" "200") 1
    (by decide) (by decide) (by decide)).2

/-- Witness for the inclusive window at both ends: records timestamped
exactly at min_time and exactly at now both reach path resolution. -/
theorem c4_window_inclusive_witness :
    ((300000000 : Int) ≤ 300000000 ∧ (300000000 : Int) ≤ 600000000 ∧
      processLine egFormat ["/api"] 600000000 300000000 egEnv "atmin" =
        resolveAndEmit ["/api"] egEnv (egEntry "tmin" "/api/v1/foo" "200")) ∧
    ((300000000 : Int) ≤ 600000000 ∧ (600000000 : Int) ≤ 600000000 ∧
      processLine egFormat ["/api"] 600000000 300000000 egEnv "atnow" =
        resolveAndEmit ["/api"] egEnv
          (egEntry "tnow" "/api/v1/foo" "200")) := by
  refine ⟨⟨by decide, by decide, ?_⟩, ⟨by decide, by decide, ?_⟩⟩
  · exact (c4_window_inclusive egFormat ["/api"] 600000000 300000000 egEnv
      "atmin" (egEntry "tmin" "/api/v1/foo" "200") 300000000
      (by decide) (by decide) (by decide) (by decide)).1
  · exact (c4_window_inclusive egFormat ["/api"] 600000000 300000000 egEnv
      "atnow" (egEntry "tnow" "/api/v1/foo" "200") 600000000
      (by decide) (by decide) (by decide) (by decide)).1

/-- Witness for the eager configuration error: an empty identifier is
rejected, and a nonempty one yields a state holding the log source
untouched. -/
theorem c5_missing_format_eager_witness :
    Analyzer_init ["l1"] (some "") []
        (fun s => ⟨s, fun _ => none, fun _ => none⟩) [] 10 =
      .error (.missingFormat
        "Require log format. Specify format name or regex pattern.") ∧
    ∃ st : AnalyzerState,
      Analyzer_init ["l1"] (some "nginx") []
          (fun s => ⟨s, fun _ => none, fun _ => none⟩) [] 10 = .ok st ∧
      st.log = ["l1"] := by
  constructor
  · exact (c5_missing_format_eager ["l1"] (some "") []
      (fun s => ⟨s, fun _ => none, fun _ => none⟩) [] 10).1 (Or.inr rfl)
  · obtain ⟨st, h1, h2, -, -⟩ := (c5_missing_format_eager ["l1"]
      (some "nginx") [] (fun s => ⟨s, fun _ => none, fun _ => none⟩) []
      10).2 "nginx" rfl (by decide)
    exact ⟨st, h1, h2⟩

/-- Witness for silent skipping of non-matching lines. -/
theorem c6_no_match_skipped_witness :
    egFormat.search "noise" = none ∧
    scanLoop egFormat ["/api"] 600000000 300000000 egEnv ["noise", "in"] =
      scanLoop egFormat ["/api"] 600000000 300000000 egEnv ["in"] := by
  refine ⟨by decide, ?_⟩
  exact (c6_no_match_skipped egFormat ["/api"] 600000000 300000000 egEnv
    "noise" ["in"] (by decide)).2

/-- Witness for the abort on a malformed numeric field: the add call
of the earlier line is kept, the error propagates, the following line
is unread. -/
theorem c7_malformed_field_aborts_witness :
    ∃ err, scanLoop egFormat ["/api"] 600000000 300000000 egEnv
      (["in"] ++ "badnum" :: ["in"]) = ⟨[egAdd], .failed err, ["in"]⟩ := by
  exact c7_malformed_field_aborts egFormat ["/api"] 600000000 300000000
    egEnv ["in"] ["in"] "badnum" (egEntry "t2" "/api/v1/foo" "XX") [egAdd]
    (by decide) (by decide)
    (Or.inr ⟨400000000, "/api", by decide, by decide, by decide, by decide,
      Or.inl (by decide)⟩)

/-- Witness for the add-call path invariant on a scan that makes one
add call under a nonempty configuration. -/
theorem c10_add_path_invariant_witness :
    egAdd ∈ (scanLoop egFormat ["/api"] 600000000 300000000 egEnv
      ["in"]).adds ∧
    (((["/api"] : List String) = [] ∧ ∃ line ∈ (["in"] : List String),
        ∃ e, egFormat.search line = some e ∧ egAdd.path = e.path) ∨
      ((["/api"] : List String) ≠ [] ∧
        egAdd.path ∈ (["/api"] : List String))) := by
  refine ⟨by decide, ?_⟩
  exact c10_add_path_invariant egFormat ["/api"] 600000000 300000000 egEnv
    ["in"] egAdd (by decide)

end Analog
